import Mathlib

/-
A shallow embedding of the interior-mutability primitives in src/src/main.rs:
a raw cell (`Cell`, the spec's RawCell) and a runtime-borrow-checked cell
(`RefCell`, the spec's TrackedCell) with its guard types `Ref` (SharedView)
and `RefMut` (ExclusiveView).

Modelling conventions:
- Rust's in-place mutation through `&self` becomes explicit state passing:
  an operation that mutates the cell returns the updated cell.
- `usize` is modelled as `Nat` together with the bound `< 2 ^ 64`; the
  arithmetic in the source (`n + 1` in `RefCell::borrow`, `n - 1` in
  `Drop for Ref`) is unchecked in the Rust text, which under the checked
  (debug) semantics panics on overflow/underflow. A panic is modelled as
  `none` in an `Option` result.
- `unreachable!()` in the two `Drop` impls is likewise a panic, i.e. `none`.
- The guards `Ref`/`RefMut` hold only a back-reference to the cell, so in
  the embedding a granted guard is a unit token and the guard operations
  (deref, deref_mut, drop) act on the `RefCell` itself.
- The source enum declares the exclusive state as `Excusive` (sic, at
  src/src/main.rs line 43); we keep the declared name.
-/

namespace SmartPtr

/-- The number of values of the 64-bit `usize` type: counters range over
`[0, USIZE)`. -/
def USIZE : Nat := 2 ^ 64

/-- Cell (src/src/main.rs lines 9-37): owns one value behind an UnsafeCell.
In the embedding the value is held directly; `set`/`get` below are the
whole-value overwrite and copy-out. -/
structure Cell (T : Type) where
  value : T
deriving DecidableEq, Repr

/-- Cell::new (line 17): stores the value, no validation. -/
def Cell.new {T : Type} (value : T) : Cell T :=
  ⟨value⟩

/-- Cell::set (line 23): unconditionally overwrites the stored value.
Rust mutates in place through `&self`; the embedding returns the updated
cell. -/
def Cell.set {T : Type} (_c : Cell T) (value : T) : Cell T :=
  ⟨value⟩

/-- Cell::get (line 29, requires `T: Copy`): returns a copy of the current
value. -/
def Cell.get {T : Type} (c : Cell T) : T :=
  c.value

/-- RefState (lines 39-44): Unshared, Shared(usize), or the exclusive state
(declared `Excusive` in the source; the Drop impls refer to the same
variant as `Exclusive`). The usize payload is a `Nat`; the `< USIZE`
bound appears where the source's arithmetic makes it matter. -/
inductive RefState where
  | Unshared : RefState
  | Shared : Nat → RefState
  | Excusive : RefState
deriving DecidableEq, Repr

/-- RefCell (lines 46-50): the guarded value plus the borrow state stored in
a Cell. -/
structure RefCell (T : Type) where
  value : T
  state : Cell RefState
deriving DecidableEq, Repr

/-- RefCell::new (lines 53-58): wraps the value, state starts Unshared. -/
def RefCell.new {T : Type} (value : T) : RefCell T :=
  ⟨value, Cell.new RefState.Unshared⟩

/-- Helper for `self.state.set(s)` (the only mutation the borrow/release
operations perform): the same cell with the state cell overwritten. -/
def RefCell.setState {T : Type} (c : RefCell T) (s : RefState) : RefCell T :=
  ⟨c.value, c.state.set s⟩

/-- RefCell::borrow_mut (lines 60-67): if the state reads Unshared, set it
to the exclusive state and hand out a RefMut guard (a unit token here);
otherwise return None and leave everything unchanged. First component:
the Option guard; second: the cell afterwards. -/
def RefCell.borrow_mut {T : Type} (c : RefCell T) : Option Unit × RefCell T :=
  match c.state.get with
  | RefState.Unshared => (some (), c.setState RefState.Excusive)
  | RefState.Shared _ => (none, c)
  | RefState.Excusive => (none, c)

/-- RefCell::borrow (lines 69-81): Unshared becomes Shared(1) with a guard;
Shared(n) becomes Shared(n + 1) with a guard, where the source's unchecked
usize `n + 1` panics on overflow (modelled as the outer `none`); the
exclusive state denies the request (inner `none`) and changes nothing. -/
def RefCell.borrow {T : Type} (c : RefCell T) : Option (Option Unit × RefCell T) :=
  match c.state.get with
  | RefState.Unshared => some (some (), c.setState (RefState.Shared 1))
  | RefState.Shared n =>
      if n + 1 < USIZE then
        some (some (), c.setState (RefState.Shared (n + 1)))
      else
        none
  | RefState.Excusive => some (none, c)

/-- Deref for Ref (lines 89-98): a shared guard dereferences to the interior
value. -/
def Ref.deref {T : Type} (c : RefCell T) : T :=
  c.value

/-- Drop for Ref (lines 100-113): Shared(1) reverts to Unshared; Shared(n)
decrements to Shared(n - 1), where usize `n - 1` at n = 0 panics
(underflow, modelled as `none`); the exclusive state and Unshared hit
`unreachable!()`, also a panic. -/
def Ref.drop {T : Type} (c : RefCell T) : Option (RefCell T) :=
  match c.state.get with
  | RefState.Excusive => none
  | RefState.Unshared => none
  | RefState.Shared 1 => some (c.setState RefState.Unshared)
  | RefState.Shared n =>
      if n = 0 then none else some (c.setState (RefState.Shared (n - 1)))

/-- Deref for RefMut (lines 119-126): an exclusive guard dereferences to the
interior value. -/
def RefMut.deref {T : Type} (c : RefCell T) : T :=
  c.value

/-- DerefMut for RefMut (lines 128-136): writing v through the mutable
reference handed out by deref_mut replaces the interior value; the state
is untouched. -/
def RefMut.deref_mut {T : Type} (c : RefCell T) (v : T) : RefCell T :=
  ⟨v, c.state⟩

/-- Drop for RefMut (lines 138-147): the exclusive state reverts to
Unshared; Shared(_) and Unshared hit `unreachable!()` (panic, `none`). -/
def RefMut.drop {T : Type} (c : RefCell T) : Option (RefCell T) :=
  match c.state.get with
  | RefState.Shared _ => none
  | RefState.Unshared => none
  | RefState.Excusive => some (c.setState RefState.Unshared)

/-- A configuration of the single-threaded client machine: the cell together
with the census of outstanding guards (how many granted Ref and RefMut
guards the client still holds). -/
structure Config (T : Type) where
  cell : RefCell T
  refs : Nat
  refMuts : Nat
deriving DecidableEq, Repr

/-- The initial configuration: a freshly constructed RefCell, no guards. -/
def Config.init {T : Type} (v : T) : Config T :=
  ⟨RefCell.new v, 0, 0⟩

/-- One single-threaded client step: call borrow (granted or denied), call
borrow_mut (granted or denied), or drop a guard the client holds. A call
that panics has no successor. -/
inductive Step {T : Type} : Config T → Config T → Prop where
  | borrowGrant (k : Config T) (c' : RefCell T) :
      k.cell.borrow = some (some (), c') →
      Step k ⟨c', k.refs + 1, k.refMuts⟩
  | borrowDeny (k : Config T) (c' : RefCell T) :
      k.cell.borrow = some (none, c') →
      Step k ⟨c', k.refs, k.refMuts⟩
  | borrowMutGrant (k : Config T) (c' : RefCell T) :
      k.cell.borrow_mut = (some (), c') →
      Step k ⟨c', k.refs, k.refMuts + 1⟩
  | borrowMutDeny (k : Config T) (c' : RefCell T) :
      k.cell.borrow_mut = (none, c') →
      Step k ⟨c', k.refs, k.refMuts⟩
  | dropRef (k : Config T) (c' : RefCell T) :
      1 ≤ k.refs →
      Ref.drop k.cell = some c' →
      Step k ⟨c', k.refs - 1, k.refMuts⟩
  | dropRefMut (k : Config T) (c' : RefCell T) :
      1 ≤ k.refMuts →
      RefMut.drop k.cell = some c' →
      Step k ⟨c', k.refs, k.refMuts - 1⟩

/-- Reachability from a fresh cell by single-threaded client steps. -/
def Reachable {T : Type} (v : T) (k : Config T) : Prop :=
  Relation.ReflTransGen Step (Config.init v) k

/-- The census invariant: the borrow state is the source of truth for the
outstanding guards. Unshared means no guards; Shared(n) means exactly n
Ref guards (and 1 ≤ n < USIZE) and no RefMut; the exclusive state means
exactly one RefMut and no Ref. -/
def inSync {T : Type} (k : Config T) : Prop :=
  match k.cell.state.get with
  | RefState.Unshared => k.refs = 0 ∧ k.refMuts = 0
  | RefState.Shared n => k.refs = n ∧ k.refMuts = 0 ∧ 1 ≤ n ∧ n < USIZE
  | RefState.Excusive => k.refs = 0 ∧ k.refMuts = 1

/-- The no-Shared(0) predicate on a borrow state: the Shared variant always
carries a positive count. -/
def noShared0 (s : RefState) : Prop :=
  ∀ n : Nat, s = RefState.Shared n → 1 ≤ n

theorem one_lt_USIZE : 1 < USIZE := by decide

@[simp] theorem borrow_unshared {T : Type} (v : T) :
    RefCell.borrow ⟨v, ⟨RefState.Unshared⟩⟩ =
      some (some (), ⟨v, ⟨RefState.Shared 1⟩⟩) := rfl

@[simp] theorem borrow_shared {T : Type} (v : T) (n : Nat) :
    RefCell.borrow ⟨v, ⟨RefState.Shared n⟩⟩ =
      if n + 1 < USIZE then some (some (), ⟨v, ⟨RefState.Shared (n + 1)⟩⟩)
      else none := rfl

@[simp] theorem borrow_excusive {T : Type} (v : T) :
    RefCell.borrow ⟨v, ⟨RefState.Excusive⟩⟩ =
      some (none, ⟨v, ⟨RefState.Excusive⟩⟩) := rfl

@[simp] theorem borrow_mut_unshared {T : Type} (v : T) :
    RefCell.borrow_mut ⟨v, ⟨RefState.Unshared⟩⟩ =
      (some (), ⟨v, ⟨RefState.Excusive⟩⟩) := rfl

@[simp] theorem borrow_mut_shared {T : Type} (v : T) (n : Nat) :
    RefCell.borrow_mut ⟨v, ⟨RefState.Shared n⟩⟩ =
      (none, ⟨v, ⟨RefState.Shared n⟩⟩) := rfl

@[simp] theorem borrow_mut_excusive {T : Type} (v : T) :
    RefCell.borrow_mut ⟨v, ⟨RefState.Excusive⟩⟩ =
      (none, ⟨v, ⟨RefState.Excusive⟩⟩) := rfl

@[simp] theorem ref_drop_unshared {T : Type} (v : T) :
    Ref.drop ⟨v, ⟨RefState.Unshared⟩⟩ = none := rfl

@[simp] theorem ref_drop_excusive {T : Type} (v : T) :
    Ref.drop ⟨v, ⟨RefState.Excusive⟩⟩ = none := rfl

@[simp] theorem ref_drop_shared_zero {T : Type} (v : T) :
    Ref.drop ⟨v, ⟨RefState.Shared 0⟩⟩ = none := rfl

@[simp] theorem ref_drop_shared_one {T : Type} (v : T) :
    Ref.drop ⟨v, ⟨RefState.Shared 1⟩⟩ = some ⟨v, ⟨RefState.Unshared⟩⟩ := rfl

@[simp] theorem ref_drop_shared_succ {T : Type} (v : T) (n : Nat) :
    Ref.drop ⟨v, ⟨RefState.Shared (n + 2)⟩⟩ =
      some ⟨v, ⟨RefState.Shared (n + 1)⟩⟩ := rfl

@[simp] theorem refmut_drop_unshared {T : Type} (v : T) :
    RefMut.drop ⟨v, ⟨RefState.Unshared⟩⟩ = none := rfl

@[simp] theorem refmut_drop_shared {T : Type} (v : T) (n : Nat) :
    RefMut.drop ⟨v, ⟨RefState.Shared n⟩⟩ = none := rfl

@[simp] theorem refmut_drop_excusive {T : Type} (v : T) :
    RefMut.drop ⟨v, ⟨RefState.Excusive⟩⟩ = some ⟨v, ⟨RefState.Unshared⟩⟩ := rfl

@[simp] theorem inSync_mk_unshared {T : Type} (v : T) (r m : Nat) :
    inSync (⟨⟨v, ⟨RefState.Unshared⟩⟩, r, m⟩ : Config T) ↔ r = 0 ∧ m = 0 :=
  Iff.rfl

@[simp] theorem inSync_mk_shared {T : Type} (v : T) (n r m : Nat) :
    inSync (⟨⟨v, ⟨RefState.Shared n⟩⟩, r, m⟩ : Config T) ↔
      r = n ∧ m = 0 ∧ 1 ≤ n ∧ n < USIZE :=
  Iff.rfl

@[simp] theorem inSync_mk_excusive {T : Type} (v : T) (r m : Nat) :
    inSync (⟨⟨v, ⟨RefState.Excusive⟩⟩, r, m⟩ : Config T) ↔ r = 0 ∧ m = 1 :=
  Iff.rfl

/-- One client step preserves the census invariant. -/
theorem inSync_step {T : Type} {k k' : Config T} (h : inSync k) (hs : Step k k') :
    inSync k' := by
  have hus : 1 < USIZE := one_lt_USIZE
  obtain ⟨⟨val, ⟨s⟩⟩, refs, refMuts⟩ := k
  cases hs with
  | borrowGrant c' hb =>
    cases s with
    | Unshared =>
      simp only [borrow_unshared, Option.some.injEq, Prod.mk.injEq, true_and] at hb
      subst hb
      simp only [inSync_mk_unshared] at h
      simp only [inSync_mk_shared]
      omega
    | Shared n =>
      rw [borrow_shared] at hb
      rcases Nat.lt_or_ge (n + 1) USIZE with hlt | hge
      · rw [if_pos hlt] at hb
        simp only [Option.some.injEq, Prod.mk.injEq, true_and] at hb
        subst hb
        simp only [inSync_mk_shared] at h ⊢
        omega
      · rw [if_neg (Nat.not_lt.mpr hge)] at hb
        exact absurd hb (by simp)
    | Excusive =>
      simp only [borrow_excusive, Option.some.injEq, Prod.mk.injEq] at hb
      exact absurd hb.1 (by simp)
  | borrowDeny c' hb =>
    cases s with
    | Unshared =>
      simp only [borrow_unshared, Option.some.injEq, Prod.mk.injEq] at hb
      exact absurd hb.1 (by simp)
    | Shared n =>
      rw [borrow_shared] at hb
      rcases Nat.lt_or_ge (n + 1) USIZE with hlt | hge
      · rw [if_pos hlt] at hb
        simp only [Option.some.injEq, Prod.mk.injEq] at hb
        exact absurd hb.1 (by simp)
      · rw [if_neg (Nat.not_lt.mpr hge)] at hb
        exact absurd hb (by simp)
    | Excusive =>
      simp only [borrow_excusive, Option.some.injEq, Prod.mk.injEq, true_and] at hb
      subst hb
      exact h
  | borrowMutGrant c' hb =>
    cases s with
    | Unshared =>
      simp only [borrow_mut_unshared, Prod.mk.injEq, true_and] at hb
      subst hb
      simp only [inSync_mk_unshared] at h
      simp only [inSync_mk_excusive]
      omega
    | Shared n =>
      simp only [borrow_mut_shared, Prod.mk.injEq] at hb
      exact absurd hb.1 (by simp)
    | Excusive =>
      simp only [borrow_mut_excusive, Prod.mk.injEq] at hb
      exact absurd hb.1 (by simp)
  | borrowMutDeny c' hb =>
    cases s with
    | Unshared =>
      simp only [borrow_mut_unshared, Prod.mk.injEq] at hb
      exact absurd hb.1 (by simp)
    | Shared n =>
      simp only [borrow_mut_shared, Prod.mk.injEq, true_and] at hb
      subst hb
      exact h
    | Excusive =>
      simp only [borrow_mut_excusive, Prod.mk.injEq, true_and] at hb
      subst hb
      exact h
  | dropRef c' hr hd =>
    cases s with
    | Unshared => exact absurd hd (by simp)
    | Shared n =>
      simp only [inSync_mk_shared] at h
      match n, h with
      | 1, h =>
        simp only [ref_drop_shared_one, Option.some.injEq] at hd
        subst hd
        simp only [inSync_mk_unshared]
        omega
      | (m + 2), h =>
        simp only [ref_drop_shared_succ, Option.some.injEq] at hd
        subst hd
        simp only [inSync_mk_shared]
        omega
    | Excusive => exact absurd hd (by simp)
  | dropRefMut c' hr hd =>
    cases s with
    | Unshared => exact absurd hd (by simp)
    | Shared n => exact absurd hd (by simp)
    | Excusive =>
      simp only [refmut_drop_excusive, Option.some.injEq] at hd
      subst hd
      simp only [inSync_mk_excusive] at h
      simp only [inSync_mk_unshared]
      omega

/-- Every reachable configuration satisfies the census invariant. -/
theorem reachable_inSync {T : Type} {v : T} {k : Config T} (h : Reachable v k) :
    inSync k := by
  have h' : Relation.ReflTransGen Step (Config.init v) k := h
  clear h
  induction h' with
  | refl => exact ⟨rfl, rfl⟩
  | tail _ hstep ih => exact inSync_step ih hstep

/-- Iterating successful borrows: the configuration with state Shared(n + 1)
and n + 1 outstanding shared guards is reachable whenever the count stays
below USIZE. -/
theorem reach_shared {T : Type} (v : T) :
    ∀ n : Nat, n + 1 < USIZE →
      Reachable v ⟨⟨v, ⟨RefState.Shared (n + 1)⟩⟩, n + 1, 0⟩ := by
  intro n
  induction n with
  | zero =>
    intro _
    exact Relation.ReflTransGen.single
      (Step.borrowGrant (Config.init v) ⟨v, ⟨RefState.Shared 1⟩⟩ rfl)
  | succ m ih =>
    intro hlt
    have hm : m + 1 < USIZE := by omega
    refine Relation.ReflTransGen.tail (ih hm)
      (Step.borrowGrant ⟨⟨v, ⟨RefState.Shared (m + 1)⟩⟩, m + 1, 0⟩
        ⟨v, ⟨RefState.Shared (m + 2)⟩⟩ ?_)
    show RefCell.borrow ⟨v, ⟨RefState.Shared (m + 1)⟩⟩ = _
    rw [borrow_shared, if_pos hlt]

/-- C1: for every single-threaded sequence of borrow, borrow_mut and guard
releases from RefCell::new, the borrow state always equals the census of
outstanding guards (Unshared = none, Shared(n) = exactly n shared guards,
the exclusive state = exactly one exclusive guard); in particular a granted
RefMut never coexists with any other granted guard. -/
theorem exclusive_never_coexists {T : Type} (v : T) (k : Config T)
    (h : Reachable v k) :
    inSync k ∧ (1 ≤ k.refMuts → k.refMuts = 1 ∧ k.refs = 0) := by
  have hi := reachable_inSync h
  obtain ⟨⟨val, ⟨s⟩⟩, refs, refMuts⟩ := k
  refine ⟨hi, fun hm => ?_⟩
  have hm' : 1 ≤ refMuts := hm
  show refMuts = 1 ∧ refs = 0
  cases s with
  | Unshared =>
    simp only [inSync_mk_unshared] at hi
    omega
  | Shared n =>
    simp only [inSync_mk_shared] at hi
    omega
  | Excusive =>
    simp only [inSync_mk_excusive] at hi
    omega

/-- Witness for C1: the census invariant at a concrete reachable
configuration, one granted shared guard after a single borrow. -/
theorem exclusive_never_coexists_witness :
    inSync (⟨⟨0, ⟨RefState.Shared 1⟩⟩, 1, 0⟩ : Config Nat)
    ∧ (1 ≤ (⟨⟨0, ⟨RefState.Shared 1⟩⟩, 1, 0⟩ : Config Nat).refMuts →
        (⟨⟨0, ⟨RefState.Shared 1⟩⟩, 1, 0⟩ : Config Nat).refMuts = 1
        ∧ (⟨⟨0, ⟨RefState.Shared 1⟩⟩, 1, 0⟩ : Config Nat).refs = 0) :=
  exclusive_never_coexists 0 ⟨⟨0, ⟨RefState.Shared 1⟩⟩, 1, 0⟩
    (Relation.ReflTransGen.single
      (Step.borrowGrant (Config.init 0) ⟨0, ⟨RefState.Shared 1⟩⟩ rfl))

/-- C2: borrow_mut grants an exclusive guard iff the prior state is
Unshared, in which case the state becomes the exclusive state; in every
other state it returns no guard and leaves the cell unchanged. -/
theorem borrow_mut_spec {T : Type} (c : RefCell T) :
    (c.state.get = RefState.Unshared →
        c.borrow_mut = (some (), c.setState RefState.Excusive))
  ∧ (c.state.get ≠ RefState.Unshared → c.borrow_mut = (none, c))
  ∧ ((c.borrow_mut).1.isSome = true ↔ c.state.get = RefState.Unshared) := by
  obtain ⟨v, ⟨s⟩⟩ := c
  cases s with
  | Unshared =>
    exact ⟨fun _ => rfl, fun hne => absurd rfl hne, by simp [Cell.get]⟩
  | Shared n =>
    refine ⟨fun hc => ?_, fun _ => rfl, by simp [Cell.get]⟩
    simp [Cell.get] at hc
  | Excusive =>
    refine ⟨fun hc => ?_, fun _ => rfl, by simp [Cell.get]⟩
    simp [Cell.get] at hc

/-- Witness for C2: borrow_mut at a fresh cell grants and sets the
exclusive state; at a cell with one shared guard it is denied and changes
nothing. -/
theorem borrow_mut_spec_witness :
    (RefCell.new (7 : Nat)).borrow_mut =
        (some (), (RefCell.new (7 : Nat)).setState RefState.Excusive)
    ∧ RefCell.borrow_mut (⟨7, ⟨RefState.Shared 1⟩⟩ : RefCell Nat) =
        (none, ⟨7, ⟨RefState.Shared 1⟩⟩) :=
  ⟨(borrow_mut_spec (RefCell.new 7)).1 rfl,
   (borrow_mut_spec (⟨7, ⟨RefState.Shared 1⟩⟩ : RefCell Nat)).2.1 (by decide)⟩

/-- C3 counterexample: the configuration with state Shared(usize::MAX),
usize::MAX = USIZE - 1, is reachable by USIZE - 1 successful borrows, and
there borrow does not grant a view even though the state is Shared(n): the
unchecked usize increment n + 1 overflows (checked semantics: panic,
modelled as none). -/
theorem borrow_overflow_cex :
    Reachable (0 : Nat) ⟨⟨0, ⟨RefState.Shared (USIZE - 1)⟩⟩, USIZE - 1, 0⟩
    ∧ (⟨0, ⟨RefState.Shared (USIZE - 1)⟩⟩ : RefCell Nat).state.get =
        RefState.Shared (USIZE - 1)
    ∧ RefCell.borrow (⟨0, ⟨RefState.Shared (USIZE - 1)⟩⟩ : RefCell Nat) = none := by
  refine ⟨?_, rfl, ?_⟩
  · have h := reach_shared (0 : Nat) (USIZE - 2) (by decide)
    have e : USIZE - 2 + 1 = USIZE - 1 := by decide
    rw [e] at h
    exact h
  · rw [borrow_shared, if_neg (by decide)]

/-- C3 (amended): borrow grants a shared guard iff the prior state is
Unshared or Shared(n) with n + 1 < USIZE, transitioning Unshared to
Shared(1) and Shared(n) to Shared(n + 1); it returns a denial (no view)
iff the state is the exclusive state, which it leaves unchanged; at
Shared(n) with n + 1 = USIZE the usize increment overflows (panic). -/
theorem borrow_spec_checked {T : Type} (c : RefCell T) :
    (c.state.get = RefState.Unshared →
        c.borrow = some (some (), c.setState (RefState.Shared 1)))
  ∧ (∀ n : Nat, c.state.get = RefState.Shared n → n + 1 < USIZE →
        c.borrow = some (some (), c.setState (RefState.Shared (n + 1))))
  ∧ (∀ n : Nat, c.state.get = RefState.Shared n → ¬ n + 1 < USIZE →
        c.borrow = none)
  ∧ (c.state.get = RefState.Excusive → c.borrow = some (none, c))
  ∧ ((∃ c' : RefCell T, c.borrow = some (none, c')) ↔
        c.state.get = RefState.Excusive) := by
  obtain ⟨v, ⟨s⟩⟩ := c
  cases s with
  | Unshared =>
    refine ⟨fun _ => rfl, fun n hn _ => ?_, fun n hn _ => ?_, fun he => ?_, ?_⟩
    · simp [Cell.get] at hn
    · simp [Cell.get] at hn
    · simp [Cell.get] at he
    · constructor
      · rintro ⟨c', hc⟩
        rw [borrow_unshared] at hc
        simp at hc
      · intro he
        simp [Cell.get] at he
  | Shared n =>
    refine ⟨fun h0 => ?_, fun m hm hlt => ?_, fun m hm hnlt => ?_, fun he => ?_, ?_⟩
    · simp [Cell.get] at h0
    · simp [Cell.get] at hm
      subst hm
      rw [borrow_shared, if_pos hlt]
      rfl
    · simp [Cell.get] at hm
      subst hm
      rw [borrow_shared, if_neg hnlt]
    · simp [Cell.get] at he
    · constructor
      · rintro ⟨c', hc⟩
        rw [borrow_shared] at hc
        rcases Nat.lt_or_ge (n + 1) USIZE with hlt | hge
        · rw [if_pos hlt] at hc
          simp at hc
        · rw [if_neg (Nat.not_lt.mpr hge)] at hc
          simp at hc
      · intro he
        simp [Cell.get] at he
  | Excusive =>
    refine ⟨fun h0 => ?_, fun m hm _ => ?_, fun m hm _ => ?_, fun _ => rfl, ?_⟩
    · simp [Cell.get] at h0
    · simp [Cell.get] at hm
    · simp [Cell.get] at hm
    · exact ⟨fun _ => rfl, fun _ => ⟨⟨v, ⟨RefState.Excusive⟩⟩, rfl⟩⟩

/-- Witness for C3 (amended): borrow at a fresh cell grants Shared(1), at
Shared(1) grants Shared(2), and at the exclusive state is denied. -/
theorem borrow_spec_checked_witness :
    RefCell.borrow (RefCell.new (7 : Nat)) =
        some (some (), (RefCell.new (7 : Nat)).setState (RefState.Shared 1))
    ∧ RefCell.borrow (⟨7, ⟨RefState.Shared 1⟩⟩ : RefCell Nat) =
        some (some (),
          RefCell.setState ⟨7, ⟨RefState.Shared 1⟩⟩ (RefState.Shared (1 + 1)))
    ∧ RefCell.borrow (⟨7, ⟨RefState.Excusive⟩⟩ : RefCell Nat) =
        some (none, ⟨7, ⟨RefState.Excusive⟩⟩) :=
  ⟨(borrow_spec_checked (RefCell.new 7)).1 rfl,
   (borrow_spec_checked (⟨7, ⟨RefState.Shared 1⟩⟩ : RefCell Nat)).2.1 1 rfl
     (by decide),
   (borrow_spec_checked (⟨7, ⟨RefState.Excusive⟩⟩ : RefCell Nat)).2.2.2.1 rfl⟩

/-- C4: releasing (dropping) one shared guard at state Shared(n) moves the
state to Unshared when n = 1 and to Shared(n - 1) when n > 1. -/
theorem ref_release_spec {T : Type} (c : RefCell T) (n : Nat)
    (h : c.state.get = RefState.Shared n) :
    (n = 1 → Ref.drop c = some (c.setState RefState.Unshared))
  ∧ (1 < n → Ref.drop c = some (c.setState (RefState.Shared (n - 1)))) := by
  obtain ⟨v, ⟨s⟩⟩ := c
  simp [Cell.get] at h
  subst h
  constructor
  · rintro rfl
    rfl
  · intro hn
    rcases n with _ | _ | m
    · exact absurd hn (by omega)
    · exact absurd hn (by omega)
    · rfl

/-- Witness for C4: dropping the last of one shared guard yields Unshared;
dropping one of three yields Shared(2). -/
theorem ref_release_spec_witness :
    Ref.drop (⟨7, ⟨RefState.Shared 1⟩⟩ : RefCell Nat) =
        some (RefCell.setState ⟨7, ⟨RefState.Shared 1⟩⟩ RefState.Unshared)
    ∧ Ref.drop (⟨7, ⟨RefState.Shared 3⟩⟩ : RefCell Nat) =
        some (RefCell.setState ⟨7, ⟨RefState.Shared 3⟩⟩ (RefState.Shared (3 - 1))) :=
  ⟨(ref_release_spec (⟨7, ⟨RefState.Shared 1⟩⟩ : RefCell Nat) 1 rfl).1 rfl,
   (ref_release_spec (⟨7, ⟨RefState.Shared 3⟩⟩ : RefCell Nat) 3 rfl).2 (by omega)⟩

/-- C5: no reachable configuration has state Shared(0); the no-Shared(0)
predicate is preserved by every client step (borrow, borrow_mut and both
guard releases); and the transition that would produce Shared(0) — the
release of the last shared guard — produces Unshared instead. -/
theorem no_shared_zero :
    (∀ (T : Type) (v : T) (k : Config T), Reachable v k →
        noShared0 k.cell.state.get)
  ∧ (∀ (T : Type) (k k' : Config T), noShared0 k.cell.state.get → Step k k' →
        noShared0 k'.cell.state.get)
  ∧ (∀ (T : Type) (c : RefCell T), c.state.get = RefState.Shared 1 →
        Ref.drop c = some (c.setState RefState.Unshared)) := by
  refine ⟨?_, ?_, ?_⟩
  · intro T v k h n hn
    have hi := reachable_inSync h
    obtain ⟨⟨val, ⟨s⟩⟩, r, m⟩ := k
    simp [Cell.get] at hn
    subst hn
    simp only [inSync_mk_shared] at hi
    omega
  · intro T k k' hns hs
    obtain ⟨⟨val, ⟨s⟩⟩, refs, refMuts⟩ := k
    cases hs with
    | borrowGrant c' hb =>
      cases s with
      | Unshared =>
        simp only [borrow_unshared, Option.some.injEq, Prod.mk.injEq, true_and] at hb
        subst hb
        intro m hm
        simp [Cell.get] at hm
        omega
      | Shared n =>
        rw [borrow_shared] at hb
        rcases Nat.lt_or_ge (n + 1) USIZE with hlt | hge
        · rw [if_pos hlt] at hb
          simp only [Option.some.injEq, Prod.mk.injEq, true_and] at hb
          subst hb
          intro m hm
          simp [Cell.get] at hm
          omega
        · rw [if_neg (Nat.not_lt.mpr hge)] at hb
          exact absurd hb (by simp)
      | Excusive =>
        simp only [borrow_excusive, Option.some.injEq, Prod.mk.injEq] at hb
        exact absurd hb.1 (by simp)
    | borrowDeny c' hb =>
      cases s with
      | Unshared =>
        simp only [borrow_unshared, Option.some.injEq, Prod.mk.injEq] at hb
        exact absurd hb.1 (by simp)
      | Shared n =>
        rw [borrow_shared] at hb
        rcases Nat.lt_or_ge (n + 1) USIZE with hlt | hge
        · rw [if_pos hlt] at hb
          simp only [Option.some.injEq, Prod.mk.injEq] at hb
          exact absurd hb.1 (by simp)
        · rw [if_neg (Nat.not_lt.mpr hge)] at hb
          exact absurd hb (by simp)
      | Excusive =>
        simp only [borrow_excusive, Option.some.injEq, Prod.mk.injEq, true_and] at hb
        subst hb
        exact hns
    | borrowMutGrant c' hb =>
      cases s with
      | Unshared =>
        simp only [borrow_mut_unshared, Prod.mk.injEq, true_and] at hb
        subst hb
        intro m hm
        simp [Cell.get] at hm
      | Shared n =>
        simp only [borrow_mut_shared, Prod.mk.injEq] at hb
        exact absurd hb.1 (by simp)
      | Excusive =>
        simp only [borrow_mut_excusive, Prod.mk.injEq] at hb
        exact absurd hb.1 (by simp)
    | borrowMutDeny c' hb =>
      cases s with
      | Unshared =>
        simp only [borrow_mut_unshared, Prod.mk.injEq] at hb
        exact absurd hb.1 (by simp)
      | Shared n =>
        simp only [borrow_mut_shared, Prod.mk.injEq, true_and] at hb
        subst hb
        exact hns
      | Excusive =>
        simp only [borrow_mut_excusive, Prod.mk.injEq, true_and] at hb
        subst hb
        exact hns
    | dropRef c' hr hd =>
      cases s with
      | Unshared => exact absurd hd (by simp)
      | Shared n =>
        have h1 : 1 ≤ n := hns n rfl
        match n, h1, hd with
        | 1, _, hd =>
          simp only [ref_drop_shared_one, Option.some.injEq] at hd
          subst hd
          intro m hm
          simp [Cell.get] at hm
        | (p + 2), _, hd =>
          simp only [ref_drop_shared_succ, Option.some.injEq] at hd
          subst hd
          intro q hq
          simp [Cell.get] at hq
          omega
      | Excusive => exact absurd hd (by simp)
    | dropRefMut c' hr hd =>
      cases s with
      | Unshared => exact absurd hd (by simp)
      | Shared n => exact absurd hd (by simp)
      | Excusive =>
        simp only [refmut_drop_excusive, Option.some.injEq] at hd
        subst hd
        intro m hm
        simp [Cell.get] at hm
  · intro T c h
    obtain ⟨v, ⟨s⟩⟩ := c
    simp [Cell.get] at h
    subst h
    rfl

/-- Witness for C5: the predicate at the initial configuration, its
preservation along a concrete borrow step, and the Shared(1) release at a
concrete cell. -/
theorem no_shared_zero_witness :
    noShared0 (Config.init (9 : Nat)).cell.state.get
    ∧ noShared0 ((⟨⟨9, ⟨RefState.Shared 1⟩⟩, 1, 0⟩ : Config Nat).cell.state.get)
    ∧ Ref.drop (⟨9, ⟨RefState.Shared 1⟩⟩ : RefCell Nat) =
        some (RefCell.setState ⟨9, ⟨RefState.Shared 1⟩⟩ RefState.Unshared) :=
  ⟨no_shared_zero.1 Nat 9 (Config.init 9) Relation.ReflTransGen.refl,
   no_shared_zero.2.1 Nat (Config.init 9) ⟨⟨9, ⟨RefState.Shared 1⟩⟩, 1, 0⟩
     (no_shared_zero.1 Nat 9 (Config.init 9) Relation.ReflTransGen.refl)
     (Step.borrowGrant (Config.init 9) ⟨9, ⟨RefState.Shared 1⟩⟩ rfl),
   no_shared_zero.2.2 Nat (⟨9, ⟨RefState.Shared 1⟩⟩ : RefCell Nat) rfl⟩

/-- C6: with guards the sole mutators of the state, the fatal branches in
the releases are unreachable: in every reachable configuration, a held
shared guard sees state Shared(n) with n ≥ 1 and its release succeeds, and
a held exclusive guard sees the exclusive state and its release succeeds;
were a release to observe one of the excluded states, it panics
(unreachable!, modelled as none) rather than silently continuing. -/
theorem guard_release_fatal_branches :
    (∀ (T : Type) (v : T) (k : Config T), Reachable v k →
        (1 ≤ k.refs →
            (∃ n, 1 ≤ n ∧ k.cell.state.get = RefState.Shared n)
          ∧ (Ref.drop k.cell).isSome = true)
      ∧ (1 ≤ k.refMuts →
            k.cell.state.get = RefState.Excusive
          ∧ (RefMut.drop k.cell).isSome = true))
  ∧ (∀ (T : Type) (c : RefCell T),
        c.state.get = RefState.Unshared ∨ c.state.get = RefState.Excusive →
        Ref.drop c = none)
  ∧ (∀ (T : Type) (c : RefCell T) (n : Nat),
        c.state.get = RefState.Unshared ∨ c.state.get = RefState.Shared n →
        RefMut.drop c = none) := by
  refine ⟨?_, ?_, ?_⟩
  · intro T v k h
    have hi := reachable_inSync h
    obtain ⟨⟨val, ⟨s⟩⟩, refs, refMuts⟩ := k
    constructor
    · intro hr
      have hr' : 1 ≤ refs := hr
      cases s with
      | Unshared =>
        simp only [inSync_mk_unshared] at hi
        exact absurd hr' (by omega)
      | Shared n =>
        simp only [inSync_mk_shared] at hi
        refine ⟨⟨n, hi.2.2.1, rfl⟩, ?_⟩
        have h1 : 1 ≤ n := hi.2.2.1
        match n, h1 with
        | 1, _ => rfl
        | (p + 2), _ => rfl
      | Excusive =>
        simp only [inSync_mk_excusive] at hi
        exact absurd hr' (by omega)
    · intro hm
      have hm' : 1 ≤ refMuts := hm
      cases s with
      | Unshared =>
        simp only [inSync_mk_unshared] at hi
        exact absurd hm' (by omega)
      | Shared n =>
        simp only [inSync_mk_shared] at hi
        exact absurd hm' (by omega)
      | Excusive => exact ⟨rfl, rfl⟩
  · intro T c h
    obtain ⟨v, ⟨s⟩⟩ := c
    rcases h with h | h
    · simp [Cell.get] at h
      subst h
      rfl
    · simp [Cell.get] at h
      subst h
      rfl
  · intro T c n h
    obtain ⟨v, ⟨s⟩⟩ := c
    rcases h with h | h
    · simp [Cell.get] at h
      subst h
      rfl
    · simp [Cell.get] at h
      subst h
      rfl

/-- Witness for C6: after one granted borrow the held shared guard sees
Shared(1) and its release succeeds; the fatal branches fire on the
excluded states of concrete cells. -/
theorem guard_release_fatal_branches_witness :
    ((∃ n, 1 ≤ n ∧
        (⟨⟨0, ⟨RefState.Shared 1⟩⟩, 1, 0⟩ : Config Nat).cell.state.get =
          RefState.Shared n)
      ∧ (Ref.drop (⟨⟨0, ⟨RefState.Shared 1⟩⟩, 1, 0⟩ : Config Nat).cell).isSome = true)
    ∧ Ref.drop (⟨3, ⟨RefState.Unshared⟩⟩ : RefCell Nat) = none
    ∧ RefMut.drop (⟨3, ⟨RefState.Shared 1⟩⟩ : RefCell Nat) = none :=
  ⟨(guard_release_fatal_branches.1 Nat 0 ⟨⟨0, ⟨RefState.Shared 1⟩⟩, 1, 0⟩
      (Relation.ReflTransGen.single
        (Step.borrowGrant (Config.init 0) ⟨0, ⟨RefState.Shared 1⟩⟩ rfl))).1
    (Nat.le_refl 1),
   guard_release_fatal_branches.2.1 Nat (⟨3, ⟨RefState.Unshared⟩⟩ : RefCell Nat)
    (Or.inl rfl),
   guard_release_fatal_branches.2.2 Nat (⟨3, ⟨RefState.Shared 1⟩⟩ : RefCell Nat) 1
    (Or.inr rfl)⟩

/-- C7: the concrete scenario on TrackedCell::new(0): borrow_mut succeeds;
writing 5 through the exclusive guard and releasing it; a borrow then
succeeds and reads 5; a second borrow while the first is live succeeds
with count 2; and borrow_mut while either shared guard is live returns no
view and changes nothing. -/
theorem scenario_new_write_read :
    (RefCell.new (0 : Nat)).borrow_mut =
        (some (), ⟨0, ⟨RefState.Excusive⟩⟩)
    ∧ RefMut.deref_mut (⟨0, ⟨RefState.Excusive⟩⟩ : RefCell Nat) 5 =
        ⟨5, ⟨RefState.Excusive⟩⟩
    ∧ RefMut.drop (⟨5, ⟨RefState.Excusive⟩⟩ : RefCell Nat) =
        some ⟨5, ⟨RefState.Unshared⟩⟩
    ∧ RefCell.borrow (⟨5, ⟨RefState.Unshared⟩⟩ : RefCell Nat) =
        some (some (), ⟨5, ⟨RefState.Shared 1⟩⟩)
    ∧ Ref.deref (⟨5, ⟨RefState.Shared 1⟩⟩ : RefCell Nat) = 5
    ∧ RefCell.borrow (⟨5, ⟨RefState.Shared 1⟩⟩ : RefCell Nat) =
        some (some (), ⟨5, ⟨RefState.Shared 2⟩⟩)
    ∧ RefCell.borrow_mut (⟨5, ⟨RefState.Shared 1⟩⟩ : RefCell Nat) =
        (none, ⟨5, ⟨RefState.Shared 1⟩⟩)
    ∧ RefCell.borrow_mut (⟨5, ⟨RefState.Shared 2⟩⟩ : RefCell Nat) =
        (none, ⟨5, ⟨RefState.Shared 2⟩⟩) := by
  refine ⟨rfl, rfl, rfl, rfl, rfl, ?_, rfl, rfl⟩
  rw [borrow_shared, if_pos (by decide)]

/-- C8: RawCell get after set(v) returns v for every duplicable value; in
particular RawCell::new(42) gets 42 and after set(43) gets 43. -/
theorem cell_set_get :
    (∀ (T : Type) (c : Cell T) (v : T), (c.set v).get = v)
  ∧ (∀ (T : Type) (v : T), (Cell.new v).get = v)
  ∧ (Cell.new (42 : Nat)).get = 42
  ∧ ((Cell.new (42 : Nat)).set 43).get = 43 :=
  ⟨fun _ _ _ => rfl, fun _ _ => rfl, rfl, rfl⟩

/-- C9: the shared count is a fixed-width usize and the increment in borrow
is unchecked: at Shared(USIZE - 1) = Shared(usize::MAX) a further borrow
overflows (under the checked semantics it panics, modelled as none), so
the number of simultaneously outstanding shared guards in any reachable
configuration is bounded by the machine word. -/
theorem shared_count_word_bounded :
    (∀ (T : Type) (v : T),
        RefCell.borrow (⟨v, ⟨RefState.Shared (USIZE - 1)⟩⟩ : RefCell T) = none)
  ∧ (∀ (T : Type) (v : T) (k : Config T), Reachable v k →
        k.refs < USIZE
      ∧ ∀ n : Nat, k.cell.state.get = RefState.Shared n → n < USIZE) := by
  constructor
  · intro T v
    rw [borrow_shared, if_neg (by decide)]
  · intro T v k h
    have hus : 1 < USIZE := one_lt_USIZE
    have hi := reachable_inSync h
    obtain ⟨⟨val, ⟨s⟩⟩, refs, refMuts⟩ := k
    cases s with
    | Unshared =>
      simp only [inSync_mk_unshared] at hi
      refine ⟨?_, fun n hn => ?_⟩
      · show refs < USIZE
        omega
      · simp [Cell.get] at hn
    | Shared n =>
      simp only [inSync_mk_shared] at hi
      refine ⟨?_, fun m hm => ?_⟩
      · show refs < USIZE
        omega
      · simp [Cell.get] at hm
        omega
    | Excusive =>
      simp only [inSync_mk_excusive] at hi
      refine ⟨?_, fun n hn => ?_⟩
      · show refs < USIZE
        omega
      · simp [Cell.get] at hn

/-- Witness for C9: the overflow panic at a concrete cell holding
Shared(usize::MAX), and the bound at the initial configuration. -/
theorem shared_count_word_bounded_witness :
    RefCell.borrow (⟨(0 : Nat), ⟨RefState.Shared (USIZE - 1)⟩⟩ : RefCell Nat) = none
    ∧ (Config.init (0 : Nat)).refs < USIZE :=
  ⟨shared_count_word_bounded.1 Nat 0,
   (shared_count_word_bounded.2 Nat 0 (Config.init 0)
      Relation.ReflTransGen.refl).1⟩

/-- C10: borrow, borrow_mut and both guard releases never touch the stored
interior value — only the borrow-state cell changes; the interior is
reached only through a guard dereference. -/
theorem state_ops_preserve_value {T : Type} (c : RefCell T) :
    ((c.borrow_mut).2.value = c.value)
  ∧ (∀ (g : Option Unit) (c' : RefCell T), c.borrow = some (g, c') →
        c'.value = c.value)
  ∧ (∀ c' : RefCell T, Ref.drop c = some c' → c'.value = c.value)
  ∧ (∀ c' : RefCell T, RefMut.drop c = some c' → c'.value = c.value) := by
  obtain ⟨v, ⟨s⟩⟩ := c
  cases s with
  | Unshared =>
    refine ⟨rfl, fun g c' hb => ?_, fun c' hd => ?_, fun c' hd => ?_⟩
    · simp only [borrow_unshared, Option.some.injEq, Prod.mk.injEq] at hb
      obtain ⟨rfl, rfl⟩ := hb
      rfl
    · simp at hd
    · simp at hd
  | Shared n =>
    refine ⟨rfl, fun g c' hb => ?_, fun c' hd => ?_, fun c' hd => ?_⟩
    · rw [borrow_shared] at hb
      rcases Nat.lt_or_ge (n + 1) USIZE with hlt | hge
      · rw [if_pos hlt] at hb
        simp only [Option.some.injEq, Prod.mk.injEq] at hb
        obtain ⟨rfl, rfl⟩ := hb
        rfl
      · rw [if_neg (Nat.not_lt.mpr hge)] at hb
        exact absurd hb (by simp)
    · match n, hd with
      | 1, hd =>
        simp only [ref_drop_shared_one, Option.some.injEq] at hd
        subst hd
        rfl
      | 0, hd => exact absurd hd (by simp)
      | (p + 2), hd =>
        simp only [ref_drop_shared_succ, Option.some.injEq] at hd
        subst hd
        rfl
    · simp at hd
  | Excusive =>
    refine ⟨rfl, fun g c' hb => ?_, fun c' hd => ?_, fun c' hd => ?_⟩
    · simp only [borrow_excusive, Option.some.injEq, Prod.mk.injEq] at hb
      obtain ⟨rfl, rfl⟩ := hb
      rfl
    · simp at hd
    · simp only [refmut_drop_excusive, Option.some.injEq] at hd
      subst hd
      rfl

/-- Witness for C10: the value 7 survives a granted borrow_mut, a granted
borrow, a shared release and an exclusive release at concrete cells. -/
theorem state_ops_preserve_value_witness :
    ((RefCell.new (7 : Nat)).borrow_mut).2.value = (RefCell.new (7 : Nat)).value
    ∧ (⟨7, ⟨RefState.Shared 1⟩⟩ : RefCell Nat).value =
        (RefCell.new (7 : Nat)).value
    ∧ (⟨7, ⟨RefState.Unshared⟩⟩ : RefCell Nat).value =
        (⟨7, ⟨RefState.Shared 1⟩⟩ : RefCell Nat).value
    ∧ (⟨7, ⟨RefState.Unshared⟩⟩ : RefCell Nat).value =
        (⟨7, ⟨RefState.Excusive⟩⟩ : RefCell Nat).value :=
  ⟨(state_ops_preserve_value (RefCell.new 7)).1,
   (state_ops_preserve_value (RefCell.new 7)).2.1 (some ())
     ⟨7, ⟨RefState.Shared 1⟩⟩ rfl,
   (state_ops_preserve_value (⟨7, ⟨RefState.Shared 1⟩⟩ : RefCell Nat)).2.2.1
     ⟨7, ⟨RefState.Unshared⟩⟩ rfl,
   (state_ops_preserve_value (⟨7, ⟨RefState.Excusive⟩⟩ : RefCell Nat)).2.2.2
     ⟨7, ⟨RefState.Unshared⟩⟩ rfl⟩

end SmartPtr
